import Mathlib

/-!
Verification of the ProofMap skill-evidence engine.

This file gives a shallow embedding of the pure core of the ProofMap
repository scan route (the skill catalog and resume matcher, the evidence
rule engine with its early-terminating per-repository loop, the score and
proficiency-tier derivation, the aggregator, and the remediation planner
from the suggestions library), together with theorems checking the
specification against that embedding.

Modelling conventions:
* JavaScript numbers appearing in scores are embedded as integers where the
  source only ever produces integers, and as rationals where a division or
  a 50/50 blend occurs before rounding; JavaScript Math.round agrees with
  Mathlib round (both are floor of x + 1/2), Math.min, Math.max and integer
  arithmetic are exact.
* String sets (dependency name sets) are embedded as lists of strings with
  membership tests; JavaScript substring containment (String.includes) is
  embedded by an executable character-list infix check.
* A regular expression is only ever consumed through RegExp.test in the
  scanned code, so regex lists are embedded as lists of test functions
  String to Bool; theorems about the loops quantify over them.
-/

namespace ProofMap

/-! ### String helpers: JavaScript String.includes as a character-list scan -/

/-- Does the needle occur at the head of the haystack list of characters. -/
def leadMatches : List Char → List Char → Bool
  | [], _ => true
  | _ :: _, [] => false
  | a :: as, b :: bs => a == b && leadMatches as bs

/-- Does the needle occur as a contiguous run anywhere in the haystack. -/
def hasSub (needle : List Char) : List Char → Bool
  | [] => leadMatches needle []
  | c :: cs => leadMatches needle (c :: cs) || hasSub needle cs

/-- JavaScript hay.includes(pat): substring containment. -/
def strIncludes (hay pat : String) : Bool :=
  hasSub pat.toList hay.toList

/-- JavaScript s.toLowerCase(), character by character. -/
def strToLower (s : String) : String :=
  String.mk (s.toList.map Char.toLower)

/-- Source normalize: lower-case the text ((text or "").toLowerCase()). -/
def normalize (text : String) : String :=
  strToLower text

/-- JavaScript Math.round of the exact rational quotient s / n for a
positive denominator n: the floor of s / n + 1 / 2, computed on integers
as the floor division of 2 s + n by 2 n. -/
def jsRoundDiv (s n : ℤ) : ℤ :=
  Int.fdiv (2 * s + n) (2 * n)

/-- jsRoundDiv agrees with Mathlib round of the rational quotient. -/
theorem jsRoundDiv_eq_round (s n : ℤ) (hn : 0 < n) :
    jsRoundDiv s n = round ((s : ℚ) / (n : ℚ)) := by
  rw [round_eq]
  have hq : (s : ℚ) / (n : ℚ) + 1 / 2 = ((2 * s + n : ℤ) : ℚ) / ((2 * n : ℤ) : ℚ) := by
    have hn0 : ((n : ℤ) : ℚ) ≠ 0 := by
      exact_mod_cast (by omega : (n : ℤ) ≠ 0)
    push_cast
    field_simp
    ring
  rw [hq]
  have hb : ((2 * n : ℤ) : ℚ) = (((2 * n).toNat : ℕ) : ℚ) := by
    norm_cast
    omega
  rw [hb, Rat.floor_intCast_div_natCast, Int.toNat_of_nonneg (by omega)]
  exact Int.fdiv_eq_ediv _ (by omega)

/-- Source statusFromScore: the status label and color from a final score. -/
def statusFromScore (score : ℤ) : String × String :=
  if score < 25 then ("Needs attention", "red")
  else if score < 60 then ("Medium", "yellow")
  else ("Good", "green")

/-! ### Skill catalog and resume matcher (extractClaimedSkills) -/

/-- Source SKILLS: the fixed catalog of tracked skills. -/
def SKILLS : List String :=
  ["Java", "Python", "JavaScript", "TypeScript", "C++",
   "React", "Next.js", "React Native",
   "HTML", "CSS", "Tailwind",
   "Node.js", "Express", "Spring Boot", "FastAPI",
   "REST API", "Microservices",
   "AWS", "Docker", "Jenkins", "CI/CD", "GitHub Actions",
   "PostgreSQL", "MySQL", "MongoDB",
   "Testing", "Concurrency"]

/-- Source synonyms table inside extractClaimedSkills; a skill not in the
record has no synonyms (synonyms[s] or []). -/
def synonyms : String → List String
  | "Next.js" => ["nextjs", "next.js", "next js"]
  | "Node.js" => ["nodejs", "node.js", "node js"]
  | "REST API" => ["restful", "rest api", "restful api", "rest apis"]
  | "CI/CD" => ["cicd", "ci/cd", "pipeline", "pipelines"]
  | "GitHub Actions" => ["github actions", ".github/workflows"]
  | "Spring Boot" => ["spring boot", "springboot"]
  | "React" => ["reactjs", "react js"]
  | "TypeScript" => ["typescript"]
  | "JavaScript" => ["javascript"]
  | "Tailwind" => ["tailwindcss", "tailwind css"]
  | "Docker" => ["dockerfile", "docker compose", "docker-compose"]
  | "PostgreSQL" => ["postgres", "psql"]
  | "MongoDB" => ["mongo", "mongodb"]
  | "React Native" => ["react-native", "react native"]
  | _ => []

/-- Helper of dedupeKeepFirst: drop the elements already seen. -/
def dedupeAux (seen : List String) : List String → List String
  | [] => []
  | h :: t => if seen.contains h then dedupeAux seen t else h :: dedupeAux (h :: seen) t

/-- JavaScript Array.from(new Set(found)): keep the first occurrence of
each element, drop later duplicates. -/
def dedupeKeepFirst (l : List String) : List String :=
  dedupeAux [] l

/-- Source extractClaimedSkills: a skill of the catalog is collected when
its normalized name or any normalized synonym is a non-empty substring of
the normalized resume text; the collected list is deduplicated. -/
def extractClaimedSkills (text : String) : List String :=
  let t := normalize text
  let found := SKILLS.filter (fun s =>
    ((s :: synonyms s).map normalize).any (fun p => !(p == "") && strIncludes t p))
  dedupeKeepFirst found

/-! ### Score and proficiency-tier derivation -/

/-- Source matchScore: proof strength from the signaling-repository count. -/
def matchScore (strongSignalsAcrossRepos : ℕ) : ℤ :=
  if strongSignalsAcrossRepos ≤ 0 then 0
  else if strongSignalsAcrossRepos = 1 then 50
  else 100

/-- The level and score pair returned by calculateProficiency. -/
structure Proficiency where
  level : String
  score : ℤ
deriving DecidableEq, Repr

/-- Source calculateProficiency: derive a proficiency level and a final
score from the signaling-repository count, the advanced-usage repository
count and the total code files considered. -/
def calculateProficiency (reposWithProof reposWithAdvanced totalCodeFiles : ℕ) :
    Proficiency :=
  if reposWithProof = 0 then ⟨"None", 0⟩
  else
    let baseScore := matchScore reposWithProof
    let proficiencyBoost : ℤ :=
      if 0 < reposWithAdvanced then min 20 ((reposWithAdvanced : ℤ) * 10) else 0
    let finalScore := min 100 (baseScore + proficiencyBoost)
    if 2 ≤ reposWithAdvanced ∧ 80 ≤ finalScore then ⟨"Expert", finalScore⟩
    else if 1 ≤ reposWithAdvanced ∨ (2 ≤ reposWithProof ∧ 20 ≤ totalCodeFiles) then
      ⟨"Intermediate", max finalScore 60⟩
    else if 1 ≤ reposWithProof then ⟨"Beginner", min finalScore 65⟩
    else ⟨"None", 0⟩

/-! ### Helper lemmas about the derivation -/

/-- The base score (50 for one signaling repository, 100 for two or more)
with the advanced boost min 20 (10 a) added and the sum capped at 100. -/
def profBoosted (n a : ℕ) : ℤ :=
  min 100 ((if n = 1 then 50 else 100) + min 20 ((a : ℤ) * 10))

/-- Characterisation of calculateProficiency on a positive signaling count:
base of 50 or 100, advanced boost min 20 (10 a) capped at 100, then the
tier cascade. -/
theorem calculateProficiency_pos (n a t : ℕ) (hn : n ≠ 0) :
    calculateProficiency n a t =
      (if 2 ≤ a ∧ 80 ≤ profBoosted n a then ⟨"Expert", profBoosted n a⟩
       else if 1 ≤ a ∨ (2 ≤ n ∧ 20 ≤ t) then ⟨"Intermediate", max (profBoosted n a) 60⟩
       else ⟨"Beginner", min (profBoosted n a) 65⟩) := by
  have hms : matchScore n = (if n = 1 then (50 : ℤ) else 100) := by
    unfold matchScore
    rw [if_neg (by omega : ¬ n ≤ 0)]
  have hboost : (if 0 < a then min 20 ((a : ℤ) * 10) else 0) = min 20 ((a : ℤ) * 10) := by
    rcases Nat.eq_zero_or_pos a with h | h
    · subst h; simp
    · rw [if_pos h]
  unfold calculateProficiency
  rw [if_neg hn]
  simp only [hms, hboost, profBoosted]
  split_ifs <;> first | rfl | omega

/-- calculateProficiency on a zero signaling count. -/
theorem calculateProficiency_zero (a t : ℕ) :
    calculateProficiency 0 a t = ⟨"None", 0⟩ := by
  unfold calculateProficiency
  simp

/-- The boosted score lies between 50 and 100 whenever n is positive. -/
theorem profBoosted_bounds (n a : ℕ) :
    50 ≤ profBoosted n a ∧ profBoosted n a ≤ 100 := by
  have ha : (0 : ℤ) ≤ (a : ℤ) := Int.natCast_nonneg a
  unfold profBoosted
  split_ifs <;> omega

/-- The derived score always lies between 0 and 100. -/
theorem calculateProficiency_score_bounds (n a t : ℕ) :
    0 ≤ (calculateProficiency n a t).score ∧ (calculateProficiency n a t).score ≤ 100 := by
  rcases Nat.eq_zero_or_pos n with h | h
  · subst h; rw [calculateProficiency_zero]
    dsimp only
    omega
  · rw [calculateProficiency_pos n a t (by omega)]
    have hb := profBoosted_bounds n a
    split_ifs <;> dsimp only <;> omega

/-! ### Repository facts and skill rules -/

/-- Source RepoFacts: the normalized per-repository record produced by the
scanner (dependency sets as lower-cased name lists, lower-cased file paths,
retained code samples, count of code files selected for fetch). -/
structure RepoFacts where
  repo : String
  deps : List String
  pyDeps : List String
  filesLower : List String
  codeSamples : List String
  totalCodeFiles : ℕ

/-- Source SkillRules: one rule per skill. Regular expressions are consumed
only through RegExp.test in the scanned code, so the regex lists are
embedded as lists of test functions. -/
structure SkillRules where
  deps : List String
  pyDeps : List String
  fileIndicators : List String
  importRegex : List (String → Bool)
  linguistLang : Option String
  advancedPatterns : List (String → Bool)
  excludePatterns : List (String → Bool)

/-- Field access through an optional rule (JavaScript rules?.deps). -/
def depsOf : Option SkillRules → List String
  | some r => r.deps
  | none => []

/-- Field access through an optional rule (JavaScript rules?.pyDeps). -/
def pyDepsOf : Option SkillRules → List String
  | some r => r.pyDeps
  | none => []

/-- Field access through an optional rule (JavaScript rules?.fileIndicators). -/
def indicatorsOf : Option SkillRules → List String
  | some r => r.fileIndicators
  | none => []

/-- Field access through an optional rule (JavaScript rules?.importRegex). -/
def regexOf : Option SkillRules → List (String → Bool)
  | some r => r.importRegex
  | none => []

/-- Field access through an optional rule (JavaScript rules?.advancedPatterns). -/
def advOf : Option SkillRules → List (String → Bool)
  | some r => r.advancedPatterns
  | none => []

/-- Truthiness of rules?.linguistLang (present and non-empty). -/
def truthyLang : Option SkillRules → Bool
  | some r =>
    match r.linguistLang with
    | some l => !(l == "")
    | none => false
  | none => false

/-- The language identifier of a rule (read only under truthyLang). -/
def langOf : Option SkillRules → String
  | some r => r.linguistLang.getD ""
  | none => ""

/-! ### Per-repository signal checks (the four OR-ed evidence channels) -/

/-- File/path indicator channel: some indicator is a substring of some
scanned path (rules.fileIndicators.some of r.filesLower.some includes). -/
def fiHit (ru : Option SkillRules) (r : RepoFacts) : Bool :=
  !(indicatorsOf ru).isEmpty &&
    (indicatorsOf ru).any (fun fi => r.filesLower.any (fun p => strIncludes p (strToLower fi)))

/-- Primary-manifest dependency channel. -/
def depHit (ru : Option SkillRules) (r : RepoFacts) : Bool :=
  !(depsOf ru).isEmpty && (depsOf ru).any (fun d => r.deps.contains (strToLower d))

/-- Secondary-ecosystem (requirements) dependency channel. -/
def pyHit (ru : Option SkillRules) (r : RepoFacts) : Bool :=
  !(pyDepsOf ru).isEmpty && (pyDepsOf ru).any (fun d => r.pyDeps.contains (strToLower d))

/-- Usage-regex channel against the retained code samples. -/
def reHit (ru : Option SkillRules) (r : RepoFacts) : Bool :=
  !(regexOf ru).isEmpty &&
    r.codeSamples.any (fun txt => (regexOf ru).any (fun re => re txt))

/-- Advanced-pattern check against the retained code samples. -/
def advHit (ru : Option SkillRules) (r : RepoFacts) : Bool :=
  !(advOf ru).isEmpty &&
    r.codeSamples.any (fun txt => (advOf ru).any (fun re => re txt))

/-- The repoSignal counter of the evidence loop body: each of the four
channels contributes one when it fires. -/
def repoSignalCount (ru : Option SkillRules) (r : RepoFacts) : ℕ :=
  (if fiHit ru r then 1 else 0) + (if depHit ru r then 1 else 0) +
    (if pyHit ru r then 1 else 0) + (if reHit ru r then 1 else 0)

/-! ### The evidence-signal loop (non-language skills) -/

/-- The three accumulators threaded through the per-repository evidence
loop of the scan route. -/
structure EvidenceAcc where
  reposWithProof : ℕ
  reposWithAdvanced : ℕ
  totalCodeFiles : ℕ
deriving DecidableEq, Repr

/-- One iteration of the evidence loop: bump the signaling count when any
channel fired, the advanced count when additionally an advanced pattern
matched, and the code-file total when the file-indicator channel fired. -/
def evidenceStep (ru : Option SkillRules) (acc : EvidenceAcc) (r : RepoFacts) :
    EvidenceAcc :=
  let repoSignal := repoSignalCount ru r
  let tcf := if fiHit ru r then acc.totalCodeFiles + r.totalCodeFiles
             else acc.totalCodeFiles
  let hasAdvancedPattern := decide (0 < repoSignal) && advHit ru r
  if 0 < repoSignal then
    ⟨acc.reposWithProof + 1,
     if hasAdvancedPattern then acc.reposWithAdvanced + 1 else acc.reposWithAdvanced,
     tcf⟩
  else ⟨acc.reposWithProof, acc.reposWithAdvanced, tcf⟩

/-- The evidence loop without the break: scan every repository. -/
def evidenceScanFull (ru : Option SkillRules) : List RepoFacts → EvidenceAcc → EvidenceAcc
  | [], acc => acc
  | r :: rest, acc => evidenceScanFull ru rest (evidenceStep ru acc r)

/-- The evidence loop as written in the route: stop as soon as three or
more repositories signal (the break after the per-repository update). -/
def evidenceScanEarly (ru : Option SkillRules) : List RepoFacts → EvidenceAcc → EvidenceAcc
  | [], acc => acc
  | r :: rest, acc =>
    let acc2 := evidenceStep ru acc r
    if 3 ≤ acc2.reposWithProof then acc2 else evidenceScanEarly ru rest acc2

/-! ### The hybrid-language loop (Java, Python, JavaScript, TypeScript, HTML, CSS) -/

/-- One iteration of the hybrid-language loop: a pattern is found through
the file-indicator channel, or failing that through the usage-regex
channel; the code-file total is added whenever a pattern was found. -/
def hybridStep (ru : Option SkillRules) (acc : EvidenceAcc) (r : RepoFacts) :
    EvidenceAcc :=
  let hasPattern := if fiHit ru r then true else reHit ru r
  let hasAdvancedPattern := hasPattern && advHit ru r
  if hasPattern then
    ⟨acc.reposWithProof + 1,
     if hasAdvancedPattern then acc.reposWithAdvanced + 1 else acc.reposWithAdvanced,
     acc.totalCodeFiles + r.totalCodeFiles⟩
  else acc

/-- The hybrid-language loop scans every repository (no break). -/
def hybridScan (ru : Option SkillRules) (facts : List RepoFacts) : EvidenceAcc :=
  facts.foldl (hybridStep ru) ⟨0, 0, 0⟩

/-! ### Language byte statistics -/

/-- Aggregated language byte totals (langTotals[lang] or 0). -/
def lookupBytes (langTotals : List (String × ℕ)) (lang : String) : ℕ :=
  match langTotals.find? (fun p => p.1 == lang) with
  | some p => p.2
  | none => 0

/-- Total bytes with the division-by-zero guard (sum or 1). -/
def totalBytes (langTotals : List (String × ℕ)) : ℕ :=
  let s := (langTotals.map Prod.snd).sum
  if s = 0 then 1 else s

/-- Source clamp, Math.max(0, Math.min(100, Math.round(q))), applied to the
exact rational quotient s / n. -/
def clampRoundDiv (s n : ℤ) : ℤ :=
  max 0 (min 100 (jsRoundDiv s n))

/-- Source langPercent: the clamp of the byte share times 100 (the share
bytes / totalBytes times 100 is the quotient 100 bytes / totalBytes). -/
def langPercent (langTotals : List (String × ℕ)) (lang : String) : ℤ :=
  clampRoundDiv (100 * (lookupBytes langTotals lang : ℤ)) (totalBytes langTotals : ℤ)

/-! ### The per-skill scorer (the breakdown map of the route) -/

/-- One entry of the breakdown of the route response. -/
structure SkillResult where
  skill : String
  score : ℤ
  status : String
  color : String
  proficiency : Option String
deriving DecidableEq, Repr

/-- Skills scored purely from the language statistics. -/
def pureLinguistSkills : List String := ["C++"]

/-- Skills scored by the 50/50 blend of language share and proficiency. -/
def hybridLanguages : List String :=
  ["Java", "Python", "JavaScript", "TypeScript", "HTML", "CSS"]

/-- The body of the breakdown map of the route: the pure linguist path, the
hybrid 50/50 path, and the evidence-signal path with early termination. -/
def scoreSkill (RULESf : String → Option SkillRules) (langTotals : List (String × ℕ))
    (facts : List RepoFacts) (skill : String) : SkillResult :=
  let rules := RULESf skill
  if truthyLang rules && pureLinguistSkills.contains skill then
    let score := langPercent langTotals (langOf rules)
    let sc := statusFromScore score
    ⟨skill, score, sc.1, sc.2, none⟩
  else if truthyLang rules && hybridLanguages.contains skill then
    let linguistScore := langPercent langTotals (langOf rules)
    let acc := hybridScan rules facts
    let proficiency :=
      calculateProficiency acc.reposWithProof acc.reposWithAdvanced acc.totalCodeFiles
    let score := jsRoundDiv (linguistScore + proficiency.score) 2
    let sc := statusFromScore score
    ⟨skill, score, sc.1, sc.2, some proficiency.level⟩
  else
    let acc := evidenceScanEarly rules facts ⟨0, 0, 0⟩
    let proficiency :=
      calculateProficiency acc.reposWithProof acc.reposWithAdvanced acc.totalCodeFiles
    let sc := statusFromScore proficiency.score
    ⟨skill, proficiency.score, sc.1, sc.2, some proficiency.level⟩

/-! ### The aggregator -/

/-- The breakdown of the route: one SkillResult per claimed skill. -/
def breakdownFor (RULESf : String → Option SkillRules) (langTotals : List (String × ℕ))
    (facts : List RepoFacts) (claimed : List String) : List SkillResult :=
  claimed.map (scoreSkill RULESf langTotals facts)

/-- Source overallScore: 0 on an empty breakdown, otherwise the rounded
mean of the per-skill scores. -/
def overallScore (breakdown : List SkillResult) : ℤ :=
  if breakdown.length = 0 then 0
  else jsRoundDiv ((breakdown.map (fun s => s.score)).sum) (breakdown.length : ℤ)

/-- Source provenSkills: the skills of the breakdown entries scoring 25 or
more. -/
def provenSkills (breakdown : List SkillResult) : List String :=
  (breakdown.filter (fun b => decide (25 ≤ b.score))).map (fun b => b.skill)

/-- Source missingProof: the skills of the breakdown entries scoring below
25. -/
def missingProof (breakdown : List SkillResult) : List String :=
  (breakdown.filter (fun b => decide (b.score < 25))).map (fun b => b.skill)

/-! ### The remediation planner (suggestions library) -/

/-- JavaScript s.endsWith(suffix) as a character-list check. -/
def strEndsWith (s suffix : String) : Bool :=
  leadMatches suffix.toList.reverse s.toList.reverse

/-- Source scoreRepoForSkill: the lightweight per-repository affinity score
(extension match, dependency match, conventional indicator match, small
repository-size bonus). -/
def scoreRepoForSkill (skill : String) (r : RepoFacts) : ℕ :=
  let low := r.filesLower
  let lowerDeps := r.deps.map strToLower
  let jsExt := [".js", ".jsx", ".ts", ".tsx"]
  let pyExt := [".py"]
  let s1 : ℕ :=
    if (skill == "React" || skill == "Next.js" || skill == "Node.js")
        && low.any (fun p => jsExt.any (fun e => strEndsWith p e)) then 3 else 0
  let s2 : ℕ :=
    if (skill == "FastAPI" || skill == "Python")
        && low.any (fun p => pyExt.any (fun e => strEndsWith p e)) then 3 else 0
  let s3 : ℕ :=
    if skill == "React" && (lowerDeps.contains "react" || lowerDeps.contains "react-dom")
    then 4 else 0
  let s4 : ℕ := if skill == "Next.js" && lowerDeps.contains "next" then 4 else 0
  let s5 : ℕ := if skill == "Node.js" && lowerDeps.contains "express" then 2 else 0
  let s6 : ℕ :=
    if skill == "Docker" && low.any (fun p => strIncludes p "dockerfile") then 5 else 0
  let s7 : ℕ :=
    if (skill == "GitHub Actions" || skill == "CI/CD")
        && low.any (fun p => strIncludes p ".github/workflows") then 5 else 0
  let s8 : ℕ := min 2 (low.length / 50)
  s1 + s2 + s3 + s4 + s5 + s6 + s7 + s8

/-- Source projectIdeasForSkill: concise project idea sentences per skill
family, with a generic two-entry fallback. -/
def projectIdeasForSkill (s : String) : List String :=
  let lower := strToLower s
  if strIncludes lower "react" then
    ["A notes component library that showcases interactive list and state management.",
     "A reusable form input collection with validation patterns and examples.",
     "A dashboard card component that displays live or sample data and can be reused across pages.",
     "A small UI widget library focused on accessibility and keyboard navigation."]
  else if strIncludes lower "next" then
    ["A minimal blog that demonstrates server rendered pages and simple post fetching.",
     "An events listing site with a server rendered index and JSON API for details.",
     "A documentation site that uses server rendering for content and a search API."]
  else if strIncludes lower "node" then
    ["A resume analyzer service that accepts profiles and returns simple matching suggestions.",
     "A parking helper API that tracks available spots and exposes search endpoints.",
     "A small CRUD microservice that manages items and demonstrates input validation."]
  else if strIncludes lower "docker" then
    ["A containerized sample web service designed to demonstrate multi stage builds.",
     "A tiny tooling image that wraps a CLI and can be run as a portable utility."]
  else if strIncludes lower "github actions" || strIncludes lower "ci"
      || strIncludes lower "cicd" then
    ["A continuous integration workflow that runs lint and tests for a project.",
     "A release automation workflow that builds and publishes an artifact when releasing."]
  else if strIncludes lower "test" || strIncludes lower "testing" then
    ["A focused unit test suite that covers core module behavior and edge cases.",
     "A small end to end test that verifies a critical user flow for the app."]
  else if strIncludes lower "aws" then
    ["An S3 uploader utility that demonstrates object storage interactions.",
     "A simple Lambda function that processes input and writes results to storage."]
  else if strIncludes lower "postgres" || strIncludes lower "mysql"
      || strIncludes lower "postgresql" then
    ["A tiny app that illustrates database migrations and a sample analytical query.",
     "A URL shortener service that stores mappings and demonstrates basic SQL usage."]
  else if strIncludes lower "mongo" || strIncludes lower "mongodb" then
    ["A notes API that stores JSON documents and demonstrates flexible queries.",
     "A content service that uses document storage for varying schemas and search."]
  else if strIncludes lower "python" then
    ["A small machine learning trainer that fits a random forest on a toy dataset and reports metrics.",
     "A command line CSV processor that summarizes and filters data."]
  else if strIncludes lower "java" then
    ["A tiny service module with one REST endpoint and a JUnit test that validates its behavior.",
     "A simple library that provides a clear example class and unit test."]
  else
    ["A focused demo project that highlights " ++ s ++ " with one clear outcome reviewers can run locally.",
     "A small example that exercises " ++ s ++ " in isolation and is easy to inspect."]

/-- Source extraProjectNamesForSkill: extra concrete project names used
when no existing repository fits. -/
def extraProjectNamesForSkill (s : String) : List String :=
  let lower := strToLower s
  if strIncludes lower "react" then
    ["Interactive notes app", "Tagged todo list", "Recipe manager with filters",
     "Kanban board for tasks", "Mini analytics dashboard"]
  else if strIncludes lower "next" then
    ["Server rendered personal blog", "Events calendar with details API",
     "Documentation site with search", "Minimal ecommerce product list",
     "Landing page with newsletter signup"]
  else if strIncludes lower "node" then
    ["Resume analyzer API", "Parking availability service", "Inventory CRUD API",
     "Authentication demo service", "Webhook receiver service"]
  else if strIncludes lower "python" then
    ["Random forest trainer for toy data", "CSV summarizer CLI", "Simple web scraper",
     "Data validation tool", "Small ETL pipeline"]
  else if strIncludes lower "docker" then
    ["Containerized web API", "CLI utility image", "Multi stage build example",
     "Containerized database with seed data", "Tiny microservice image"]
  else if strIncludes lower "aws" then
    ["S3 uploader utility", "Lambda image processor", "Simple DynamoDB key value store",
     "SNS notification demo", "Serverless form handler"]
  else if strIncludes lower "postgres" || strIncludes lower "mysql" then
    ["URL shortener", "Analytics sample app", "Blog with migrations",
     "Order tracking table demo", "Simple reporting service"]
  else if strIncludes lower "mongo" then
    ["Notes API", "Content store with flexible schema", "Activity log service",
     "User preferences store", "Document tagging service"]
  else if strIncludes lower "github actions" || strIncludes lower "ci"
      || strIncludes lower "cicd" then
    ["Lint and test CI workflow", "Release automation workflow",
     "Dependency update workflow", "Container build and publish workflow",
     "Security scan workflow"]
  else if strIncludes lower "test" || strIncludes lower "testing" then
    ["Unit test suite for core module", "End to end test for critical flow",
     "Property based test example", "Integration test against a fake service",
     "Quick performance smoke test"]
  else if strIncludes lower "java" then
    ["Tiny REST service module", "Utility library with example", "CLI tool with unit tests",
     "Sample Spring Boot controller", "Simple data processing module"]
  else
    [s ++ " demo project", s ++ " example service", s ++ " starter app",
     s ++ " small utility", s ++ " sample module"]

/-- Source usageDetailsForSkill: the three repository-specific guidance
bullets attached when an integration target exists. -/
def usageDetailsForSkill (s : String) : List String :=
  let lower := strToLower s
  if strIncludes lower "react" then
    ["Add a small demo component in an examples or components folder so reviewers can see React usage in context.",
     "Document one example import and the demo page where the component is rendered so it is easy to find.",
     "Include a short note describing the component purpose and expected behavior for quick verification."]
  else if strIncludes lower "next" then
    ["Add one server rendered page or API route in the app or pages directory to show Next.js features.",
     "Mention the route path and the local URL to visit so reviewers can confirm server side rendering.",
     "Include a brief note about where data originates and which file demonstrates the framework usage."]
  else if strIncludes lower "node" then
    ["Add a compact API route or script in a server or scripts folder to show Node.js backend work.",
     "Provide one curl example or command that demonstrates the endpoint response for quick verification.",
     "Add a short description of the endpoint purpose and expected JSON fields so reviewers can validate behavior."]
  else if strIncludes lower "docker" then
    ["Add a Dockerfile at the project root and a .dockerignore so the repository shows containerization skills.",
     "Document exact build and run commands so reviewers can reproduce the container locally.",
     "Point to a health or status command the reviewer can run to confirm the container starts correctly."]
  else if strIncludes lower "github actions" || strIncludes lower "ci"
      || strIncludes lower "cicd" then
    ["Add a minimal workflow under .github/workflows that runs the project test command to demonstrate CI integration.",
     "Mention the workflow file name and the trigger (push or pull request) so reviewers can find the run.",
     "Include a short note about what the workflow verifies and how success looks in the Actions tab."]
  else if strIncludes lower "test" || strIncludes lower "testing" then
    ["Add a focused unit test for a core module and expose a test script in the project manifest.",
     "Point to the test file and list the exact command to run tests so reviewers can reproduce results.",
     "Include one sentence about what the test demonstrates and any fixture or mock used."]
  else if strIncludes lower "aws" then
    ["Add a short example that uses the AWS SDK to perform one clear action such as uploading to S3.",
     "Document how reviewers can configure credentials or use a local emulator like LocalStack.",
     "Mention the file that contains the example and the exact command to run it for verification."]
  else if strIncludes lower "postgres" || strIncludes lower "mysql"
      || strIncludes lower "postgresql" then
    ["Add a migration or a small query example in a migrations or db directory to demonstrate database usage.",
     "Document the connection URL format and a one line query to run for verification.",
     "Mention the migration or seed file so reviewers can inspect the schema and sample data."]
  else if strIncludes lower "mongo" || strIncludes lower "mongodb" then
    ["Add a small data example that inserts and queries a document to show MongoDB usage within the repository.",
     "Mention the script or module that runs the example and the connection string format.",
     "Include a short note about the expected document output so reviewers can confirm the example quickly."]
  else if strIncludes lower "python" then
    ["Add a small script and a requirements.txt and include a pytest test to make Python usage visible.",
     "Document the Python version and exact commands to create a venv and run the test.",
     "Point to the script and test file so reviewers can inspect the behavior quickly."]
  else if strIncludes lower "java" then
    ["Add a tiny module with a JUnit test and include build files so Java usage is visible in the repository.",
     "Mention the build command (mvn or gradle) and the test to run for verification.",
     "Point to the example class and test file so reviewers can see the demonstration immediately."]
  else
    ["Add a focused example in a clear folder and mention the file that demonstrates the skill.",
     "Document the exact command reviewers can run to verify the example.",
     "Include a one line description of what the example shows for quick inspection."]

/-- Source planForProject: three execution bullets per project idea, with a
generic fallback plan. -/
def planForProject (name : String) : List String :=
  let low := strToLower name
  if strIncludes low "notes" || strIncludes low "notes app" then
    ["Build a single page that creates, edits, and lists notes with local persistence.",
     "Include a small search or tag filter to demonstrate state management or queries.",
     "Add one example data file or seed so reviewers can see sample content quickly."]
  else if strIncludes low "todo" || strIncludes low "tasks" then
    ["Implement create, update, and delete flows for tasks to show CRUD behavior.",
     "Add a small filter by tag or status to demonstrate list handling and state.",
     "Provide a sample dataset or example usage that reviewers can inspect without running complex setup."]
  else if strIncludes low "resume" || strIncludes low "analyzer" then
    ["Accept a simple JSON profile and return a scored summary of matching skills.",
     "Demonstrate how matching logic maps resume fields to skill categories with one example input.",
     "Include one sample input and the corresponding output so reviewers can verify the behavior quickly."]
  else if strIncludes low "parking" then
    ["Model available spots and a query endpoint to find nearby spots by simple criteria.",
     "Provide an example of adding and removing spots so reviewers can exercise state changes.",
     "Include one example query and the expected JSON response for quick verification."]
  else if strIncludes low "random forest" || strIncludes low "trainer" then
    ["Train a small random forest on a toy dataset and report accuracy or a simple metric.",
     "Include the dataset or a script that generates synthetic data so results are reproducible.",
     "Provide the command and expected metric output so reviewers can confirm the training ran."]
  else
    ["Provide a minimal runnable entrypoint that demonstrates the core feature.",
     "Include one sample input and the expected output so reviewers can verify behavior quickly.",
     "Add a short README note explaining where the example is and how to run the verification command."]

/-- The per-skill remediation plan returned by the planner: either an
integration target with guidance, or project ideas with per-idea plans. -/
structure RemediationPlan where
  candidateExists : Bool
  repoName : Option String
  usage : Option String
  usageDetails : List String
  ideas : List String
  projectPlans : List (String × List String)
deriving DecidableEq, Repr

/-- Source generateIntegrationSuggestions: score every repository, sort
stably by descending affinity, take the first repository with a positive
score as integration target; otherwise assemble one to three project ideas
with a three-bullet plan each. -/
def generateIntegrationSuggestions (skill : String) (repoFacts : List RepoFacts) :
    RemediationPlan :=
  let scored := repoFacts.map (fun r => (r.repo, scoreRepoForSkill skill r))
  let sorted := scored.mergeSort (fun a b => decide (b.2 ≤ a.2))
  let best := sorted.find? (fun s => decide (0 < s.2))
  let candidateExists := best.isSome
  let primary := (projectIdeasForSkill skill).take 3
  let ideas :=
    if candidateExists then primary.take 3
    else (primary ++ ((extraProjectNamesForSkill skill).filter
            (fun e => !(primary.contains e))).take 3).take 3
  match best with
  | some b =>
    ⟨true, some b.1, some ("Demonstrate this skill in repository: " ++ b.1 ++ "."),
     usageDetailsForSkill skill, ideas, []⟩
  | none =>
    ⟨false, none, none, [], ideas, ideas.map (fun name => (name, planForProject name))⟩

/-! ### The scan route (POST) -/

/-- The remaining quota and reset time reported by the provider's
rate-limit endpoint. The reset time is carried as the already formatted
string interpolated into the refusal message. -/
structure RateInfo where
  remaining : ℤ
  resetTime : String
deriving DecidableEq, Repr

/-- The placeholder reset time produced when the rate-limit call itself
throws (the source uses the current wall-clock date there; the refusal
path never reads it because the sentinel remaining is negative). -/
def fallbackResetTime : String := "1970-01-01T00:00:00.000Z"

/-- Source checkRateLimit: report the provider's remaining quota and reset
time; when the provider call throws, swallow the error and report the
sentinel remaining of minus one. -/
def checkRateLimit (outcome : Option RateInfo) : RateInfo :=
  match outcome with
  | some info => info
  | none => ⟨-1, fallbackResetTime⟩

/-- One repository as returned by the listing call after the fork filter
(name and default branch). -/
structure RepoMeta where
  name : String
  default_branch : String
deriving DecidableEq, Repr

/-- The provider environment a single request runs against: the rate-limit
call outcome (none when the call throws), the repository-listing outcome
(an error status and message when listForUser throws), the aggregated
language byte totals, and the facts record the scanner produces per
repository. -/
structure Provider where
  rate : Option RateInfo
  repos : Except (ℕ × String) (List RepoMeta)
  langTotals : List (String × ℕ)
  factsOf : RepoMeta → RepoFacts

/-- The provider interactions of a request, in order, used to state that
the rate-limit refusal happens before any repository listing or fetch. -/
inductive ApiCall where
  | rateLimitCheck : ApiCall
  | listRepos : ApiCall
  | listLanguages : String → ApiCall
  | repoScan : String → ApiCall
deriving DecidableEq, Repr

/-- The parsed request body of the scan endpoint. -/
structure ScanBody where
  githubUsername : String
  resumeText : String
  selectedSkills : Option (List String)

/-- The successful response payload of the scan endpoint. -/
structure ScanPayload where
  githubUsername : String
  reposAnalyzed : ℕ
  overallScore : ℤ
  claimedSkills : List String
  provenSkills : List String
  missingProof : List String
  breakdown : List SkillResult
  actionPlan : Option (List RemediationPlan)

/-- An HTTP response of the scan endpoint: a status, an error message for
the failure shapes, and a payload for the success shape. -/
structure HttpResponse where
  status : ℕ
  error : Option String
  result : Option ScanPayload

/-- Modelled from the spec: the route revision that consumes selectedSkills
is not under src (only its caller, the upload page, and the suggestions
library are); per the external-interface section, when selectedSkills is
present the successful response additionally carries one remediation plan
per selected skill, produced by generateIntegrationSuggestions over the
same facts collection. -/
def actionPlanFor (facts : List RepoFacts) (selectedSkills : Option (List String)) :
    Option (List RemediationPlan) :=
  match selectedSkills with
  | some sel => some (sel.map (fun s => generateIntegrationSuggestions s facts))
  | none => none

/-- The scan route: input validation, the pre-flight rate-limit guard, the
repository listing, and the pure scoring pipeline over the facts records,
together with the ordered list of provider interactions performed. -/
def postScan (RULESf : String → Option SkillRules) (p : Provider) (body : ScanBody) :
    HttpResponse × List ApiCall :=
  if body.githubUsername == "" then
    (⟨400, some "Missing GitHub username", none⟩, [])
  else if body.resumeText == "" then
    (⟨400, some "Missing resumeText", none⟩, [])
  else
    let claimedSkills := extractClaimedSkills body.resumeText
    let rateLimit := checkRateLimit p.rate
    if 0 ≤ rateLimit.remaining ∧ rateLimit.remaining < 50 then
      (⟨429,
        some ("GitHub API rate limit too low (" ++ toString rateLimit.remaining ++
          " remaining). Please try again after " ++ rateLimit.resetTime ++ "."),
        none⟩,
       [ApiCall.rateLimitCheck])
    else
      match p.repos with
      | Except.error e =>
        (⟨e.1, some ("Scan failed (" ++ toString e.1 ++ "): " ++ e.2), none⟩,
         [ApiCall.rateLimitCheck, ApiCall.listRepos])
      | Except.ok repos =>
        let facts := repos.map p.factsOf
        let breakdown := breakdownFor RULESf p.langTotals facts claimedSkills
        (⟨200, none,
          some ⟨body.githubUsername, repos.length, overallScore breakdown,
            claimedSkills, provenSkills breakdown, missingProof breakdown,
            breakdown, actionPlanFor facts body.selectedSkills⟩⟩,
         [ApiCall.rateLimitCheck, ApiCall.listRepos]
           ++ repos.map (fun r => ApiCall.listLanguages r.name)
           ++ repos.map (fun r => ApiCall.repoScan r.name))

/-! ### Theorems: the matcher -/

/-- Membership in the deduplicated list: present in the input and not
among the already seen elements. -/
theorem mem_dedupeAux (a : String) :
    ∀ (l : List String) (seen : List String),
      a ∈ dedupeAux seen l ↔ a ∈ l ∧ ¬ a ∈ seen := by
  intro l
  induction l with
  | nil => intro seen; simp [dedupeAux]
  | cons h t ih =>
    intro seen
    by_cases hc : seen.contains h
    · have hmem : h ∈ seen := by simpa using hc
      rw [dedupeAux, if_pos hc, ih, List.mem_cons]
      constructor
      · rintro ⟨ht, hs⟩; exact ⟨Or.inr ht, hs⟩
      · rintro ⟨hht, hs⟩
        rcases hht with rfl | ht
        · exact absurd hmem hs
        · exact ⟨ht, hs⟩
    · have hmem : ¬ h ∈ seen := by simpa using hc
      rw [dedupeAux, if_neg hc]
      simp only [List.mem_cons, ih]
      constructor
      · rintro (rfl | ⟨ht, hs⟩)
        · exact ⟨Or.inl rfl, hmem⟩
        · exact ⟨Or.inr ht, fun hx => hs (Or.inr hx)⟩
      · rintro ⟨rfl | ht, hs⟩
        · exact Or.inl rfl
        · by_cases hah : a = h
          · exact Or.inl hah
          · exact Or.inr ⟨ht, fun hx => hx.elim hah hs⟩

/-- The deduplicated list has no duplicates. -/
theorem nodup_dedupeAux :
    ∀ (l : List String) (seen : List String), (dedupeAux seen l).Nodup := by
  intro l
  induction l with
  | nil => intro seen; simp [dedupeAux]
  | cons h t ih =>
    intro seen
    by_cases hc : seen.contains h
    · rw [dedupeAux, if_pos hc]; exact ih seen
    · rw [dedupeAux, if_neg hc]
      refine List.nodup_cons.mpr ⟨?_, ih (h :: seen)⟩
      intro hmem
      have h2 := (mem_dedupeAux h t (h :: seen)).mp hmem
      exact h2.2 (List.mem_cons_self h seen)

/-- Every pattern of the catalog (each skill name and each synonym) is
non-empty after normalisation, so the truthiness guard of the source never
drops a pattern. -/
theorem catalog_patterns_nonempty :
    SKILLS.all (fun s => (s :: synonyms s).all (fun p => !(normalize p == ""))) = true := by
  decide

/-- C5: for every resume text, extractClaimedSkills returns a
duplicate-free subset of the fixed catalog, and a catalog skill is
included exactly when its name or one of its registered synonyms occurs
as a case-insensitive substring of the normalized text (both sides
lower-cased), so the result is a function of the text alone. -/
theorem extractClaimedSkills_spec (text : String) :
    (extractClaimedSkills text).Nodup ∧
      ∀ s, s ∈ extractClaimedSkills text ↔
        s ∈ SKILLS ∧
          ((s :: synonyms s).any
            (fun p => strIncludes (normalize text) (normalize p)) = true) := by
  constructor
  · exact nodup_dedupeAux _ _
  · intro s
    have h1 : s ∈ extractClaimedSkills text ↔
        s ∈ SKILLS ∧
          (((s :: synonyms s).map normalize).any
            (fun p => !(p == "") && strIncludes (normalize text) p) = true) := by
      simp only [extractClaimedSkills, dedupeKeepFirst]
      rw [mem_dedupeAux]
      simp only [List.mem_filter, List.not_mem_nil, not_false_iff, and_true]
    rw [h1, List.any_map]
    constructor
    · rintro ⟨hs, hany⟩
      refine ⟨hs, ?_⟩
      rcases List.any_eq_true.mp hany with ⟨p, hp, hcond⟩
      refine List.any_eq_true.mpr ⟨p, hp, ?_⟩
      simp only [Function.comp] at hcond
      exact (Bool.and_eq_true_iff.mp hcond).2
    · rintro ⟨hs, hany⟩
      refine ⟨hs, ?_⟩
      rcases List.any_eq_true.mp hany with ⟨p, hp, hcond⟩
      refine List.any_eq_true.mpr ⟨p, hp, ?_⟩
      have hall := List.all_eq_true.mp catalog_patterns_nonempty s hs
      have hnep := List.all_eq_true.mp hall p hp
      simp only [Function.comp]
      exact Bool.and_eq_true_iff.mpr ⟨hnep, hcond⟩

/-! ### Theorems: score and tier derivation -/

@[simp] theorem Proficiency_level_mk (l : String) (s : ℤ) :
    (Proficiency.mk l s).level = l := rfl

@[simp] theorem Proficiency_score_mk (l : String) (s : ℤ) :
    (Proficiency.mk l s).score = s := rfl

/-- C1: the score/tier derivation from the signaling count n, the
advanced count a and the code-file total t: n = 0 gives score 0 and tier
None; otherwise the base (50 for n = 1, 100 for n at least 2) is boosted
by min 20 (10 a) and capped at 100, the tier is Expert exactly when a is
at least 2 and the boosted score at least 80, else Intermediate (score
floored at 60) exactly when a is at least 1 or both n at least 2 and t at
least 20, else Beginner with the score capped at 65. -/
theorem calculateProficiency_spec (n a t : ℕ) :
    (n = 0 → calculateProficiency n a t = ⟨"None", 0⟩) ∧
    (n ≠ 0 →
      calculateProficiency n a t =
        (if 2 ≤ a ∧ 80 ≤ profBoosted n a then ⟨"Expert", profBoosted n a⟩
         else if 1 ≤ a ∨ (2 ≤ n ∧ 20 ≤ t) then ⟨"Intermediate", max (profBoosted n a) 60⟩
         else ⟨"Beginner", min (profBoosted n a) 65⟩)) := by
  constructor
  · intro h
    rw [h]
    exact calculateProficiency_zero a t
  · exact calculateProficiency_pos n a t

/-- Witness for the derivation spec at concrete inputs. -/
theorem calculateProficiency_spec_witness :
    calculateProficiency 0 5 7 = ⟨"None", 0⟩ ∧
      calculateProficiency 2 1 0 = ⟨"Intermediate", 100⟩ := by
  constructor
  · exact (calculateProficiency_spec 0 5 7).1 rfl
  · exact ((calculateProficiency_spec 2 1 0).2 (by decide)).trans (by decide)

/-- C6: the derived score is monotone in the signaling-repository count:
one more signaling repository never decreases the score. -/
theorem calculateProficiency_score_mono (n a t : ℕ) :
    (calculateProficiency n a t).score ≤ (calculateProficiency (n + 1) a t).score := by
  match n with
  | 0 =>
    rw [calculateProficiency_zero]
    exact (calculateProficiency_score_bounds 1 a t).1
  | 1 =>
    rw [calculateProficiency_pos 1 a t (by omega),
      calculateProficiency_pos 2 a t (by omega)]
    have ha : (0 : ℤ) ≤ (a : ℤ) := Int.natCast_nonneg a
    simp only [profBoosted]
    split_ifs <;> simp only [Proficiency_score_mk] <;> omega
  | (m + 2) =>
    rw [calculateProficiency_pos (m + 2) a t (by omega),
      calculateProficiency_pos (m + 3) a t (by omega)]
    have ha : (0 : ℤ) ≤ (a : ℤ) := Int.natCast_nonneg a
    have h1 : ¬ (m + 2 = 1) := by omega
    have h2 : ¬ (m + 3 = 1) := by omega
    simp only [profBoosted, if_neg h1, if_neg h2]
    split_ifs <;> simp only [Proficiency_score_mk] <;> omega

/-! ### Theorems: score range on the three scoring paths -/

@[simp] theorem SkillResult_score_mk (sk : String) (s : ℤ) (st c : String)
    (pr : Option String) : (SkillResult.mk sk s st c pr).score = s := rfl

@[simp] theorem SkillResult_skill_mk (sk : String) (s : ℤ) (st c : String)
    (pr : Option String) : (SkillResult.mk sk s st c pr).skill = sk := rfl

/-- The clamp always lands in [0, 100]. -/
theorem clampRoundDiv_bounds (s n : ℤ) :
    0 ≤ clampRoundDiv s n ∧ clampRoundDiv s n ≤ 100 := by
  unfold clampRoundDiv
  omega

/-- Rounding the mean of two values of [0, 200] total stays in [0, 100]. -/
theorem jsRoundDiv_two_bounds (x : ℤ) (h0 : 0 ≤ x) (h200 : x ≤ 200) :
    0 ≤ jsRoundDiv x 2 ∧ jsRoundDiv x 2 ≤ 100 := by
  unfold jsRoundDiv
  rw [Int.fdiv_eq_ediv _ (by omega)]
  have h4 : (2 : ℤ) * 2 = 4 := by norm_num
  rw [h4]
  omega

/-- C7: the score of every breakdown entry is an integer between 0 and
100, on the pure language-percentage path, on the hybrid 50/50 path and
on the evidence-signal path, for every rule table, language statistics
and facts collection. -/
theorem breakdown_score_in_range (RULESf : String → Option SkillRules)
    (langTotals : List (String × ℕ)) (facts : List RepoFacts) (skill : String) :
    0 ≤ (scoreSkill RULESf langTotals facts skill).score ∧
      (scoreSkill RULESf langTotals facts skill).score ≤ 100 := by
  simp only [scoreSkill]
  split_ifs with h1 h2
  · dsimp only
    exact clampRoundDiv_bounds _ _
  · dsimp only
    have hls : 0 ≤ langPercent langTotals (langOf (RULESf skill)) ∧
        langPercent langTotals (langOf (RULESf skill)) ≤ 100 :=
      clampRoundDiv_bounds _ _
    have hps := calculateProficiency_score_bounds
      (hybridScan (RULESf skill) facts).reposWithProof
      (hybridScan (RULESf skill) facts).reposWithAdvanced
      (hybridScan (RULESf skill) facts).totalCodeFiles
    exact jsRoundDiv_two_bounds _ (by exact add_nonneg hls.1 hps.1)
      (by have := hls.2; have := hps.2; omega)
  · dsimp only
    exact calculateProficiency_score_bounds _ _ _

/-! ### Theorems: aggregator -/

/-- The skill field of a breakdown entry is the claimed skill it was
built from. -/
theorem scoreSkill_skill (RULESf : String → Option SkillRules)
    (langTotals : List (String × ℕ)) (facts : List RepoFacts) (skill : String) :
    (scoreSkill RULESf langTotals facts skill).skill = skill := by
  simp only [scoreSkill]
  split_ifs <;> rfl

/-- Below the proof threshold is the boolean negation of at or above it. -/
theorem decide_lt_25 (x : ℤ) : decide (x < 25) = !decide (25 ≤ x) := by
  rcases lt_or_le x 25 with h | h
  · simp [h, not_le.mpr h]
  · simp [h, not_lt.mpr h]

/-- C4: the overall score is 0 on an empty claimed set and otherwise the
rounded mean of the per-skill scores; the proven set is exactly the
claimed skills scoring at least 25, the missing set exactly those scoring
below 25, and together they are a permutation of the claimed skills. -/
theorem aggregator_spec (RULESf : String → Option SkillRules)
    (langTotals : List (String × ℕ)) (facts : List RepoFacts)
    (claimed : List String) :
    overallScore (breakdownFor RULESf langTotals facts claimed)
        = (if claimed.length = 0 then 0
           else round
             (((claimed.map (fun s => (scoreSkill RULESf langTotals facts s).score)).sum : ℚ)
               / (claimed.length : ℚ))) ∧
      provenSkills (breakdownFor RULESf langTotals facts claimed)
        = claimed.filter (fun s => decide (25 ≤ (scoreSkill RULESf langTotals facts s).score)) ∧
      missingProof (breakdownFor RULESf langTotals facts claimed)
        = claimed.filter (fun s => decide ((scoreSkill RULESf langTotals facts s).score < 25)) ∧
      List.Perm
        (provenSkills (breakdownFor RULESf langTotals facts claimed)
          ++ missingProof (breakdownFor RULESf langTotals facts claimed))
        claimed := by
  have hproven : provenSkills (breakdownFor RULESf langTotals facts claimed)
      = claimed.filter (fun s => decide (25 ≤ (scoreSkill RULESf langTotals facts s).score)) := by
    unfold provenSkills breakdownFor
    rw [List.filter_map, List.map_map]
    have hid : ∀ s ∈ claimed.filter
        ((fun b => decide (25 ≤ b.score)) ∘ scoreSkill RULESf langTotals facts),
        ((fun b => b.skill) ∘ scoreSkill RULESf langTotals facts) s = id s := by
      intro s _
      exact scoreSkill_skill RULESf langTotals facts s
    rw [List.map_congr_left hid, List.map_id]
    rfl
  have hmissing : missingProof (breakdownFor RULESf langTotals facts claimed)
      = claimed.filter (fun s => decide ((scoreSkill RULESf langTotals facts s).score < 25)) := by
    unfold missingProof breakdownFor
    rw [List.filter_map, List.map_map]
    have hid : ∀ s ∈ claimed.filter
        ((fun b => decide (b.score < 25)) ∘ scoreSkill RULESf langTotals facts),
        ((fun b => b.skill) ∘ scoreSkill RULESf langTotals facts) s = id s := by
      intro s _
      exact scoreSkill_skill RULESf langTotals facts s
    rw [List.map_congr_left hid, List.map_id]
    rfl
  refine ⟨?_, hproven, hmissing, ?_⟩
  · unfold overallScore breakdownFor
    rw [List.length_map, List.map_map]
    by_cases hc : claimed.length = 0
    · rw [if_pos hc, if_pos hc]
    · rw [if_neg hc, if_neg hc,
        jsRoundDiv_eq_round _ _ (by exact_mod_cast Nat.pos_of_ne_zero hc)]
      push_cast
      rfl
  · rw [hproven, hmissing]
    have hq : (fun s => decide ((scoreSkill RULESf langTotals facts s).score < 25))
        = (fun s => !(decide (25 ≤ (scoreSkill RULESf langTotals facts s).score))) := by
      funext s
      exact decide_lt_25 _
    rw [hq]
    exact List.filter_append_perm _ claimed

/-! ### Theorems: the early-terminating evidence loop -/

@[simp] theorem EvidenceAcc_reposWithProof_mk (n a t : ℕ) :
    (EvidenceAcc.mk n a t).reposWithProof = n := rfl

@[simp] theorem EvidenceAcc_reposWithAdvanced_mk (n a t : ℕ) :
    (EvidenceAcc.mk n a t).reposWithAdvanced = a := rfl

@[simp] theorem EvidenceAcc_totalCodeFiles_mk (n a t : ℕ) :
    (EvidenceAcc.mk n a t).totalCodeFiles = t := rfl

/-- The number of repositories whose evidence signal fires for the rule. -/
def countSignaling (ru : Option SkillRules) (facts : List RepoFacts) : ℕ :=
  facts.countP (fun r => decide (0 < repoSignalCount ru r))

/-- A repository with no firing channel leaves the accumulators of the
evidence loop unchanged. -/
theorem evidenceStep_of_no_signal (ru : Option SkillRules) (acc : EvidenceAcc)
    (r : RepoFacts) (h : repoSignalCount ru r = 0) :
    evidenceStep ru acc r = acc := by
  have hfi : fiHit ru r = false := by
    cases hfb : fiHit ru r with
    | false => rfl
    | true =>
      exfalso
      unfold repoSignalCount at h
      rw [hfb] at h
      simp at h
  simp only [evidenceStep, h, hfi]
  simp

/-- The signaling counter of one loop iteration. -/
theorem evidenceStep_reposWithProof (ru : Option SkillRules) (acc : EvidenceAcc)
    (r : RepoFacts) :
    (evidenceStep ru acc r).reposWithProof =
      acc.reposWithProof + (if 0 < repoSignalCount ru r then 1 else 0) := by
  simp only [evidenceStep]
  split_ifs <;> simp

/-- The full evidence scan over repositories without any signal is the
identity on the accumulators. -/
theorem evidenceScanFull_no_signal (ru : Option SkillRules) :
    ∀ (facts : List RepoFacts) (acc : EvidenceAcc),
      (∀ r ∈ facts, repoSignalCount ru r = 0) →
      evidenceScanFull ru facts acc = acc := by
  intro facts
  induction facts with
  | nil => intro acc _; rfl
  | cons r rest ih =>
    intro acc h
    rw [evidenceScanFull, evidenceStep_of_no_signal ru acc r (h r (List.mem_cons_self r rest))]
    exact ih acc (fun x hx => h x (List.mem_cons_of_mem r hx))

/-- When the signaling repositories still to come cannot push the counter
past three, the break of the early loop is immaterial: both loops compute
the same accumulators. -/
theorem evidenceScanEarly_eq_full (ru : Option SkillRules) :
    ∀ (facts : List RepoFacts) (acc : EvidenceAcc),
      acc.reposWithProof + countSignaling ru facts ≤ 3 →
      evidenceScanEarly ru facts acc = evidenceScanFull ru facts acc := by
  intro facts
  induction facts with
  | nil => intro acc _; rfl
  | cons r rest ih =>
    intro acc h
    rw [evidenceScanEarly, evidenceScanFull]
    have hcount : countSignaling ru (r :: rest)
        = countSignaling ru rest + (if 0 < repoSignalCount ru r then 1 else 0) := by
      unfold countSignaling
      rw [List.countP_cons]
      simp
    have hstep := evidenceStep_reposWithProof ru acc r
    by_cases hs : 3 ≤ (evidenceStep ru acc r).reposWithProof
    · rw [if_pos hs]
      symm
      apply evidenceScanFull_no_signal
      intro x hx
      have hrest : countSignaling ru rest = 0 := by
        rw [hcount] at h
        split_ifs at h hstep <;> omega
      have := List.countP_eq_zero.mp hrest x hx
      simpa using this
    · rw [if_neg hs]
      apply ih
      rw [hcount] at h
      split_ifs at h hstep <;> omega

/-- A rule with one dependency signal and one advanced pattern, used to
exercise the evidence loop at concrete inputs. -/
def depAdvRule : SkillRules :=
  ⟨["d"], [], [], [], none, [fun s => s == "adv"], []⟩

/-- Four repositories that all signal through the dependency channel; only
the fourth also carries the advanced sample. -/
def fourRepoFacts : List RepoFacts :=
  [⟨"r1", ["d"], [], [], [], 0⟩, ⟨"r2", ["d"], [], [], [], 0⟩,
   ⟨"r3", ["d"], [], [], [], 0⟩, ⟨"r4", ["d"], [], [], ["adv"], 0⟩]

/-- C2 counterexample: with four signaling repositories of which only the
fourth shows advanced usage, the early-terminating loop stops after the
third repository and derives Beginner with score 65, while the full scan
derives Intermediate with score 100 — the early exit changes both the
final score and the proficiency tier. -/
theorem earlyExit_differs_from_full_scan :
    (calculateProficiency
        (evidenceScanEarly (some depAdvRule) fourRepoFacts ⟨0, 0, 0⟩).reposWithProof
        (evidenceScanEarly (some depAdvRule) fourRepoFacts ⟨0, 0, 0⟩).reposWithAdvanced
        (evidenceScanEarly (some depAdvRule) fourRepoFacts ⟨0, 0, 0⟩).totalCodeFiles
      = ⟨"Beginner", 65⟩) ∧
    (calculateProficiency
        (evidenceScanFull (some depAdvRule) fourRepoFacts ⟨0, 0, 0⟩).reposWithProof
        (evidenceScanFull (some depAdvRule) fourRepoFacts ⟨0, 0, 0⟩).reposWithAdvanced
        (evidenceScanFull (some depAdvRule) fourRepoFacts ⟨0, 0, 0⟩).totalCodeFiles
      = ⟨"Intermediate", 100⟩) := by
  constructor
  · decide
  · decide

/-- C2 amended: when at most three repositories signal for the skill, the
early-terminating evidence loop produces the same accumulators, hence the
same final score and the same proficiency tier, as the full scan; with
four or more signaling repositories the two can differ. -/
theorem earlyExit_eq_full_of_few_signals (ru : Option SkillRules)
    (facts : List RepoFacts) (h : countSignaling ru facts ≤ 3) :
    evidenceScanEarly ru facts ⟨0, 0, 0⟩ = evidenceScanFull ru facts ⟨0, 0, 0⟩ ∧
      calculateProficiency
          (evidenceScanEarly ru facts ⟨0, 0, 0⟩).reposWithProof
          (evidenceScanEarly ru facts ⟨0, 0, 0⟩).reposWithAdvanced
          (evidenceScanEarly ru facts ⟨0, 0, 0⟩).totalCodeFiles
        = calculateProficiency
            (evidenceScanFull ru facts ⟨0, 0, 0⟩).reposWithProof
            (evidenceScanFull ru facts ⟨0, 0, 0⟩).reposWithAdvanced
            (evidenceScanFull ru facts ⟨0, 0, 0⟩).totalCodeFiles := by
  have heq := evidenceScanEarly_eq_full ru facts ⟨0, 0, 0⟩ (by simpa using h)
  exact ⟨heq, by rw [heq]⟩

/-- Witness for the amended loop equivalence at a concrete input with a
single signaling repository. -/
theorem earlyExit_eq_full_of_few_signals_witness :
    evidenceScanEarly (some depAdvRule) [⟨"r1", ["d"], [], [], [], 0⟩] ⟨0, 0, 0⟩
      = evidenceScanFull (some depAdvRule) [⟨"r1", ["d"], [], [], [], 0⟩] ⟨0, 0, 0⟩ :=
  (earlyExit_eq_full_of_few_signals (some depAdvRule)
    [⟨"r1", ["d"], [], [], [], 0⟩] (by decide)).1

/-! ### Theorems: the remediation planner -/

@[simp] theorem RemediationPlan_candidateExists_mk (c : Bool) (rn u : Option String)
    (ud ideas : List String) (pp : List (String × List String)) :
    (RemediationPlan.mk c rn u ud ideas pp).candidateExists = c := rfl

@[simp] theorem RemediationPlan_repoName_mk (c : Bool) (rn u : Option String)
    (ud ideas : List String) (pp : List (String × List String)) :
    (RemediationPlan.mk c rn u ud ideas pp).repoName = rn := rfl

@[simp] theorem RemediationPlan_usageDetails_mk (c : Bool) (rn u : Option String)
    (ud ideas : List String) (pp : List (String × List String)) :
    (RemediationPlan.mk c rn u ud ideas pp).usageDetails = ud := rfl

@[simp] theorem RemediationPlan_ideas_mk (c : Bool) (rn u : Option String)
    (ud ideas : List String) (pp : List (String × List String)) :
    (RemediationPlan.mk c rn u ud ideas pp).ideas = ideas := rfl

@[simp] theorem RemediationPlan_projectPlans_mk (c : Bool) (rn u : Option String)
    (ud ideas : List String) (pp : List (String × List String)) :
    (RemediationPlan.mk c rn u ud ideas pp).projectPlans = pp := rfl

/-- A lower bound on the length of a conditional between two lists holds
when it holds for both branches. -/
theorem two_le_length_ite (c : Prop) [Decidable c] (l1 l2 : List String)
    (h1 : 2 ≤ l1.length) (h2 : 2 ≤ l2.length) :
    2 ≤ (if c then l1 else l2).length := by
  by_cases hc : c
  · rwa [if_pos hc]
  · rwa [if_neg hc]

/-- The length of a conditional between two lists is three when both
branches have length three. -/
theorem length_ite_eq_three (c : Prop) [Decidable c] (l1 l2 : List String)
    (h1 : l1.length = 3) (h2 : l2.length = 3) :
    (if c then l1 else l2).length = 3 := by
  by_cases hc : c
  · rwa [if_pos hc]
  · rwa [if_neg hc]

/-- Every branch of the project-idea table returns at least two ideas. -/
theorem projectIdeasForSkill_length (s : String) :
    2 ≤ (projectIdeasForSkill s).length := by
  unfold projectIdeasForSkill
  dsimp only
  repeat' apply two_le_length_ite
  all_goals simp

/-- The guidance table always returns exactly three bullets. -/
theorem usageDetailsForSkill_length (s : String) :
    (usageDetailsForSkill s).length = 3 := by
  unfold usageDetailsForSkill
  dsimp only
  repeat' apply length_ite_eq_three
  all_goals rfl

/-- The per-idea plan always has exactly three bullets. -/
theorem planForProject_length (name : String) :
    (planForProject name).length = 3 := by
  unfold planForProject
  dsimp only
  repeat' apply length_ite_eq_three
  all_goals rfl

/-- C9: when some repository has positive affinity the planner proposes a
best-scoring repository with exactly three guidance steps; when none has,
it returns between one and three project ideas each with a three-step
plan; the output is a pure function of the skill and the facts. -/
theorem generateIntegrationSuggestions_spec (skill : String) (facts : List RepoFacts) :
    ((∃ r ∈ facts, 0 < scoreRepoForSkill skill r) →
      (generateIntegrationSuggestions skill facts).candidateExists = true ∧
      (generateIntegrationSuggestions skill facts).usageDetails.length = 3 ∧
      ∃ r ∈ facts,
        (generateIntegrationSuggestions skill facts).repoName = some r.repo ∧
        ∀ r2 ∈ facts, scoreRepoForSkill skill r2 ≤ scoreRepoForSkill skill r) ∧
    ((∀ r ∈ facts, scoreRepoForSkill skill r = 0) →
      (generateIntegrationSuggestions skill facts).candidateExists = false ∧
      1 ≤ (generateIntegrationSuggestions skill facts).ideas.length ∧
      (generateIntegrationSuggestions skill facts).ideas.length ≤ 3 ∧
      ∀ pr ∈ (generateIntegrationSuggestions skill facts).projectPlans,
        pr.2.length = 3) := by
  have htrans : ∀ (a b c : String × ℕ),
      (fun a b => decide (b.2 ≤ a.2)) a b = true →
      (fun a b => decide (b.2 ≤ a.2)) b c = true →
      (fun a b => decide (b.2 ≤ a.2)) a c = true := by
    intro a b c hab hbc
    simp only [decide_eq_true_eq] at *
    omega
  have htotal : ∀ (a b : String × ℕ),
      ((fun a b => decide (b.2 ≤ a.2)) a b || (fun a b => decide (b.2 ≤ a.2)) b a) = true := by
    intro a b
    simp only [Bool.or_eq_true, decide_eq_true_eq]
    omega
  constructor
  · rintro ⟨r, hr, hpos⟩
    have hperm := List.mergeSort_perm
      (facts.map (fun r => (r.repo, scoreRepoForSkill skill r)))
      (fun a b => decide (b.2 ≤ a.2))
    have hx : (r.repo, scoreRepoForSkill skill r) ∈
        (facts.map (fun r => (r.repo, scoreRepoForSkill skill r))).mergeSort
          (fun a b => decide (b.2 ≤ a.2)) := by
      rw [List.mem_mergeSort]
      exact List.mem_map_of_mem _ hr
    have hpw := List.sorted_mergeSort htrans htotal
      (facts.map (fun r => (r.repo, scoreRepoForSkill skill r)))
    cases hsorted : (facts.map (fun r => (r.repo, scoreRepoForSkill skill r))).mergeSort
        (fun a b => decide (b.2 ≤ a.2)) with
    | nil =>
      rw [hsorted] at hx
      exact absurd hx (List.not_mem_nil _)
    | cons hd tl =>
      rw [hsorted] at hx hpw hperm
      have hmax : ∀ y ∈ hd :: tl, y.2 ≤ hd.2 := by
        intro y hy
        rcases List.mem_cons.mp hy with rfl | hy
        · exact le_refl _
        · have := (List.pairwise_cons.mp hpw).1 y hy
          simpa using this
      have hhdpos : 0 < hd.2 := by
        have := hmax _ hx
        simpa using lt_of_lt_of_le hpos this
      have hfind : (hd :: tl).find? (fun s => decide (0 < s.2)) = some hd :=
        List.find?_cons_of_pos _ (by simpa using hhdpos)
      simp only [generateIntegrationSuggestions, hsorted, hfind]
      refine ⟨trivial, usageDetailsForSkill_length skill, ?_⟩
      have hhd : hd ∈ facts.map (fun r => (r.repo, scoreRepoForSkill skill r)) :=
        hperm.mem_iff.mp (List.mem_cons_self hd tl)
      rcases List.mem_map.mp hhd with ⟨rb, hrb, hrbeq⟩
      refine ⟨rb, hrb, ?_, ?_⟩
      · simp [← hrbeq]
      · intro r2 hr2
        have hy : (r2.repo, scoreRepoForSkill skill r2) ∈ hd :: tl := by
          rw [← hsorted, List.mem_mergeSort]
          exact List.mem_map_of_mem _ hr2
        have := hmax _ hy
        have hsc : scoreRepoForSkill skill rb = hd.2 := by rw [← hrbeq]
        simpa [hsc] using this
  · intro hzero
    have hfind : ((facts.map (fun r => (r.repo, scoreRepoForSkill skill r))).mergeSort
        (fun a b => decide (b.2 ≤ a.2))).find? (fun s => decide (0 < s.2)) = none := by
      rw [List.find?_eq_none]
      intro x hx
      rw [List.mem_mergeSort] at hx
      rcases List.mem_map.mp hx with ⟨rb, hrb, hrbeq⟩
      have := hzero rb hrb
      simp [← hrbeq, this]
    simp only [generateIntegrationSuggestions, hfind]
    refine ⟨trivial, ?_, ?_, ?_⟩
    · simp only [Option.isSome_none, Bool.false_eq_true, if_false,
        RemediationPlan_ideas_mk, List.length_take]
      have h2 := projectIdeasForSkill_length skill
      simp only [List.length_take, List.length_append]
      omega
    · simp only [Option.isSome_none, Bool.false_eq_true, if_false,
        RemediationPlan_ideas_mk, List.length_take]
      omega
    · intro pr hpr
      simp only [Option.isSome_none, Bool.false_eq_true, if_false,
        RemediationPlan_projectPlans_mk] at hpr
      rcases List.mem_map.mp hpr with ⟨nm, _, hnm⟩
      rw [← hnm]
      exact planForProject_length nm

/-- Witness for the planner spec: a repository whose file list matches the
Docker affinity check, and an empty repository collection. -/
theorem generateIntegrationSuggestions_spec_witness :
    ((generateIntegrationSuggestions "Docker"
        [⟨"repo1", [], [], ["dockerfile"], [], 0⟩]).candidateExists = true ∧
      (generateIntegrationSuggestions "Docker"
        [⟨"repo1", [], [], ["dockerfile"], [], 0⟩]).usageDetails.length = 3 ∧
      ∃ r ∈ [(⟨"repo1", [], [], ["dockerfile"], [], 0⟩ : RepoFacts)],
        (generateIntegrationSuggestions "Docker"
          [⟨"repo1", [], [], ["dockerfile"], [], 0⟩]).repoName = some r.repo ∧
        ∀ r2 ∈ [(⟨"repo1", [], [], ["dockerfile"], [], 0⟩ : RepoFacts)],
          scoreRepoForSkill "Docker" r2 ≤ scoreRepoForSkill "Docker" r) ∧
    ((generateIntegrationSuggestions "Tailwind" []).candidateExists = false ∧
      1 ≤ (generateIntegrationSuggestions "Tailwind" []).ideas.length ∧
      (generateIntegrationSuggestions "Tailwind" []).ideas.length ≤ 3 ∧
      ∀ pr ∈ (generateIntegrationSuggestions "Tailwind" []).projectPlans,
        pr.2.length = 3) := by
  constructor
  · exact (generateIntegrationSuggestions_spec "Docker"
      [⟨"repo1", [], [], ["dockerfile"], [], 0⟩]).1 (by decide)
  · exact (generateIntegrationSuggestions_spec "Tailwind" []).2 (by simp)

/-! ### Theorems: the scan route -/

@[simp] theorem RateInfo_remaining_mk (r : ℤ) (reset : String) :
    (RateInfo.mk r reset).remaining = r := rfl

@[simp] theorem RateInfo_resetTime_mk (r : ℤ) (reset : String) :
    (RateInfo.mk r reset).resetTime = reset := rfl

@[simp] theorem ScanBody_githubUsername_mk (u re : String) (sel : Option (List String)) :
    (ScanBody.mk u re sel).githubUsername = u := rfl

@[simp] theorem ScanBody_resumeText_mk (u re : String) (sel : Option (List String)) :
    (ScanBody.mk u re sel).resumeText = re := rfl

@[simp] theorem ScanBody_selectedSkills_mk (u re : String) (sel : Option (List String)) :
    (ScanBody.mk u re sel).selectedSkills = sel := rfl

/-- The success path of the route: with a present username and resume
text, a rate-limit guard that does not fire and a successful repository
listing, the response is the 200 payload over the scored breakdown and
the trace performs the rate-limit check, the listing and the
per-repository work, in that order. -/
theorem postScan_ok (RULESf : String → Option SkillRules) (p : Provider)
    (body : ScanBody)
    (hu : (body.githubUsername == "") = false)
    (hres : (body.resumeText == "") = false)
    (hguard : ¬ (0 ≤ (checkRateLimit p.rate).remaining ∧
      (checkRateLimit p.rate).remaining < 50))
    (repos : List RepoMeta) (hrepos : p.repos = Except.ok repos) :
    postScan RULESf p body =
      (⟨200, none, some ⟨body.githubUsername, repos.length,
          overallScore (breakdownFor RULESf p.langTotals (repos.map p.factsOf)
            (extractClaimedSkills body.resumeText)),
          extractClaimedSkills body.resumeText,
          provenSkills (breakdownFor RULESf p.langTotals (repos.map p.factsOf)
            (extractClaimedSkills body.resumeText)),
          missingProof (breakdownFor RULESf p.langTotals (repos.map p.factsOf)
            (extractClaimedSkills body.resumeText)),
          breakdownFor RULESf p.langTotals (repos.map p.factsOf)
            (extractClaimedSkills body.resumeText),
          actionPlanFor (repos.map p.factsOf) body.selectedSkills⟩⟩,
       [ApiCall.rateLimitCheck, ApiCall.listRepos]
         ++ repos.map (fun r => ApiCall.listLanguages r.name)
         ++ repos.map (fun r => ApiCall.repoScan r.name)) := by
  simp only [postScan]
  rw [if_neg (by simp [hu]), if_neg (by simp [hres]), if_neg hguard, hrepos]

/-- C8: a pre-flight rate-limit report with remaining quota below the
safety floor of 50 refuses the scan with HTTP 429, the message naming the
reset time, and the trace shows that no repository listing or fetch was
performed. -/
theorem rateLimit_guard_refuses (RULESf : String → Option SkillRules) (p : Provider)
    (body : ScanBody) (r : ℤ) (reset : String)
    (hu : (body.githubUsername == "") = false)
    (hres : (body.resumeText == "") = false)
    (hrate : p.rate = some ⟨r, reset⟩) (h0 : 0 ≤ r) (h50 : r < 50) :
    postScan RULESf p body =
      (⟨429,
        some ("GitHub API rate limit too low (" ++ toString r ++
          " remaining). Please try again after " ++ reset ++ "."),
        none⟩,
       [ApiCall.rateLimitCheck]) := by
  simp only [postScan, hrate, checkRateLimit]
  rw [if_neg (by simp [hu]), if_neg (by simp [hres]),
    if_pos (And.intro h0 h50)]

/-- A provider whose rate-limit call reports a low remaining quota. -/
def lowQuotaProvider : Provider :=
  ⟨some ⟨10, "10:00:00 AM"⟩, Except.ok [], [], fun _ => ⟨"", [], [], [], [], 0⟩⟩

/-- Witness for the rate-limit refusal at a concrete provider report of
10 remaining. -/
theorem rateLimit_guard_refuses_witness :
    postScan (fun _ => none) lowQuotaProvider ⟨"octocat", "resume text", none⟩ =
      (⟨429,
        some ("GitHub API rate limit too low (" ++ toString (10 : ℤ) ++
          " remaining). Please try again after " ++ "10:00:00 AM" ++ "."),
        none⟩,
       [ApiCall.rateLimitCheck]) :=
  rateLimit_guard_refuses (fun _ => none) lowQuotaProvider
    ⟨"octocat", "resume text", none⟩ 10 "10:00:00 AM"
    (by decide) (by decide) rfl (by decide) (by decide)

/-- C10: when the rate-limit query itself throws, checkRateLimit reports
the sentinel -1 and the scan proceeds to the repository listing instead of
being refused; conversely, the up-front 429 refusal (status 429 with only
the rate-limit check in the trace) occurs only when the pre-flight call
succeeded and reported a remaining quota r with 0 <= r < 50. -/
theorem checkRateLimit_sentinel_proceeds (RULESf : String → Option SkillRules)
    (p : Provider) (body : ScanBody)
    (hu : (body.githubUsername == "") = false)
    (hres : (body.resumeText == "") = false) :
    (p.rate = none →
      checkRateLimit p.rate = ⟨-1, fallbackResetTime⟩ ∧
        ApiCall.listRepos ∈ (postScan RULESf p body).2) ∧
    ((postScan RULESf p body).1.status = 429 →
      (postScan RULESf p body).2 = [ApiCall.rateLimitCheck] →
      ∃ r reset, p.rate = some ⟨r, reset⟩ ∧ 0 ≤ r ∧ r < 50) := by
  constructor
  · intro hnone
    have hcrl : checkRateLimit p.rate = ⟨-1, fallbackResetTime⟩ := by
      rw [hnone]; rfl
    refine ⟨hcrl, ?_⟩
    simp only [postScan]
    rw [if_neg (by simp [hu]), if_neg (by simp [hres]),
      if_neg (by rw [hcrl]; decide)]
    cases hrep : p.repos with
    | error e => simp
    | ok repos => simp
  · intro h429 htrace
    cases hrate : p.rate with
    | none =>
      exfalso
      have hcrl : checkRateLimit p.rate = ⟨-1, fallbackResetTime⟩ := by
        rw [hrate]; rfl
      simp only [postScan] at htrace
      rw [if_neg (by simp [hu]), if_neg (by simp [hres]),
        if_neg (by rw [hcrl]; decide)] at htrace
      cases hrep : p.repos with
      | error e =>
        rw [hrep] at htrace
        simp at htrace
      | ok repos =>
        rw [hrep] at htrace
        simp at htrace
    | some info =>
      by_cases hg : 0 ≤ info.remaining ∧ info.remaining < 50
      · obtain ⟨ir, it⟩ := info
        exact ⟨ir, it, rfl, hg.1, hg.2⟩
      · exfalso
        have hcrl : checkRateLimit p.rate = info := by rw [hrate]; rfl
        simp only [postScan] at htrace
        rw [if_neg (by simp [hu]), if_neg (by simp [hres]),
          if_neg (by rw [hcrl]; exact hg)] at htrace
        cases hrep : p.repos with
        | error e =>
          rw [hrep] at htrace
          simp at htrace
        | ok repos =>
          rw [hrep] at htrace
          simp at htrace

/-- A provider whose rate-limit call throws. -/
def throwingRateProvider : Provider :=
  ⟨none, Except.ok [], [], fun _ => ⟨"", [], [], [], [], 0⟩⟩

/-- Witness for the sentinel behaviour: the rate-limit call throws and the
scan still reaches the repository listing. -/
theorem checkRateLimit_sentinel_proceeds_witness :
    checkRateLimit throwingRateProvider.rate = ⟨-1, fallbackResetTime⟩ ∧
      ApiCall.listRepos ∈
        (postScan (fun _ => none) throwingRateProvider
          ⟨"octocat", "resume text", none⟩).2 :=
  (checkRateLimit_sentinel_proceeds (fun _ => none) throwingRateProvider
    ⟨"octocat", "resume text", none⟩ (by decide) (by decide)).1 rfl

/-- C3: when selectedSkills is present in the request, the successful
response carries, on top of the plain ScanResult fields (unchanged from
the same request without selectedSkills), one remediation plan per
selected skill as produced by generateIntegrationSuggestions over the
scanned facts (route glue modelled from the spec; see actionPlanFor). -/
theorem postScan_selectedSkills_plans (RULESf : String → Option SkillRules)
    (p : Provider) (user resume : String) (sel : List String)
    (repos : List RepoMeta)
    (hu : (user == "") = false) (hres : (resume == "") = false)
    (hguard : ¬ (0 ≤ (checkRateLimit p.rate).remaining ∧
      (checkRateLimit p.rate).remaining < 50))
    (hrepos : p.repos = Except.ok repos) :
    (postScan RULESf p ⟨user, resume, some sel⟩).1.status = 200 ∧
    ∃ payload payload0,
      (postScan RULESf p ⟨user, resume, some sel⟩).1.result = some payload ∧
      (postScan RULESf p ⟨user, resume, none⟩).1.result = some payload0 ∧
      payload.actionPlan
        = some (sel.map (fun s =>
            generateIntegrationSuggestions s (repos.map p.factsOf))) ∧
      payload0.actionPlan = none ∧
      payload = { payload0 with actionPlan := payload.actionPlan } := by
  have h1 := postScan_ok RULESf p ⟨user, resume, some sel⟩ hu hres hguard repos hrepos
  have h0 := postScan_ok RULESf p ⟨user, resume, none⟩ hu hres hguard repos hrepos
  rw [h1, h0]
  refine ⟨rfl, _, _, rfl, rfl, rfl, rfl, rfl⟩

/-- A provider with one repository and empty language statistics, used to
exercise the selectedSkills path. -/
def planWitnessProvider : Provider :=
  ⟨none, Except.ok [⟨"repo1", "main"⟩], [],
   fun _ => ⟨"repo1", [], [], ["dockerfile"], [], 1⟩⟩

/-- Witness for the selectedSkills plan attachment at a concrete provider
and a single selected skill. -/
theorem postScan_selectedSkills_plans_witness :
    (postScan (fun _ => none) planWitnessProvider
      ⟨"octocat", "resume text", some ["Docker"]⟩).1.status = 200 ∧
    ∃ payload payload0,
      (postScan (fun _ => none) planWitnessProvider
        ⟨"octocat", "resume text", some ["Docker"]⟩).1.result = some payload ∧
      (postScan (fun _ => none) planWitnessProvider
        ⟨"octocat", "resume text", none⟩).1.result = some payload0 ∧
      payload.actionPlan
        = some (["Docker"].map (fun s =>
            generateIntegrationSuggestions s
              ([(⟨"repo1", "main"⟩ : RepoMeta)].map planWitnessProvider.factsOf))) ∧
      payload0.actionPlan = none ∧
      payload = { payload0 with actionPlan := payload.actionPlan } :=
  postScan_selectedSkills_plans (fun _ => none) planWitnessProvider
    "octocat" "resume text" ["Docker"] [⟨"repo1", "main"⟩]
    (by decide) (by decide) (by decide) rfl

end ProofMap
